import Mathlib

/-!
Shallow embedding of `src/uncertain_worms/environments/minigrid/api.py`:
the minigrid state data model (`MinigridState`), the pose queries
(`front_pos`, `get_type_indices`) and the field-of-view extractor
(`get_field_of_view`), together with proofs about them.

Conventions of the embedding:
* the numpy array `grid` of shape `(width, height)` is a function
  `ℤ → ℤ → ℤ` together with explicit `width`/`height` fields (only
  in-bounds cells are ever read by the embedded operations);
* Python `int`s are `ℤ`, the nonnegative `view_size` is `ℕ`;
* Python list indexing (negative indices count from the end, out-of-range
  indices raise `IndexError`) is modelled by `pyListGet` returning `Option`;
* numpy basic slicing (negative endpoints count from the end, then both
  endpoints are clamped to `[0, len]`) is modelled by `pyResolve`, and the
  slice assignment `fov[...] = grid[...]` checks numpy's broadcast rule
  (per-axis: equal lengths, or source length 1), raising `ValueError`
  otherwise;
* fatal errors (`assert False`, `IndexError`, `ValueError`) are the
  `Except`/`Option` error values.
-/

namespace Minigrid

/-- `ObjectTypes.unseen` cell code. -/
def unseenCode : ℤ := 0

/-- `ObjectTypes.empty` cell code. -/
def emptyCode : ℤ := 1

/-- `ObjectTypes.wall` cell code. -/
def wallCode : ℤ := 2

/-- `ObjectTypes.agent` cell code. -/
def agentCode : ℤ := 12

/-- `DIR_TO_VEC`: unit displacement vectors for directions right, down,
left, up, in that order. -/
def DIR_TO_VEC : List (ℤ × ℤ) := [(1, 0), (0, 1), (-1, 0), (0, -1)]

/-- Python list indexing `l[i]` with an `int` index: a negative index counts
from the end of the list; an index outside `[-len, len)` raises `IndexError`
(modelled as `none`). -/
def pyListGet {α : Type} (l : List α) (i : ℤ) : Option α :=
  if 0 ≤ i then l.get? i.toNat
  else if 0 ≤ i + l.length then l.get? (i + l.length).toNat
  else none

/-- `MinigridState`: the grid of cell codes plus the agent's pose.
`width`/`height` stand for `grid.shape[0]`/`grid.shape[1]`. -/
structure MinigridState where
  grid : ℤ → ℤ → ℤ
  width : ℕ
  height : ℕ
  agent_pos : ℤ × ℤ
  agent_dir : ℤ
  carrying : Option ℤ

/-- `MinigridState.front_pos`: `np.array(agent_pos) + np.array(DIR_TO_VEC[agent_dir])`.
The list lookup uses Python indexing semantics; the addition is componentwise. -/
def front_pos (s : MinigridState) : Option (ℤ × ℤ) :=
  (pyListGet DIR_TO_VEC s.agent_dir).map fun v =>
    (s.agent_pos.1 + v.1, s.agent_pos.2 + v.2)

/-- `MinigridState.get_type_indices`: `np.where(grid == type)` traverses the
array in row-major (C) order — ascending first index, then ascending second
index — and the matching index pairs are zipped into a list. -/
def get_type_indices (s : MinigridState) (t : ℤ) : List (ℕ × ℕ) :=
  (List.range s.width).flatMap fun i : ℕ =>
    (List.range s.height).filterMap fun j : ℕ =>
      if s.grid i j = t then some (i, j) else none

/-- Step 1 of `get_field_of_view`: the top-left corner `(topX, topY)` of the
view window, from the branch on `agent_dir`; any other direction hits
`assert False` (modelled as `none`). `view_size // 2` is `ℕ` division. -/
def fovTop (s : MinigridState) (view_size : ℕ) : Option (ℤ × ℤ) :=
  if s.agent_dir = 0 then
    some (s.agent_pos.1, s.agent_pos.2 - (view_size / 2 : ℕ))
  else if s.agent_dir = 1 then
    some (s.agent_pos.1 - (view_size / 2 : ℕ), s.agent_pos.2)
  else if s.agent_dir = 2 then
    some (s.agent_pos.1 - view_size + 1, s.agent_pos.2 - (view_size / 2 : ℕ))
  else if s.agent_dir = 3 then
    some (s.agent_pos.1 - (view_size / 2 : ℕ), s.agent_pos.2 - view_size + 1)
  else none

/-- Python slice-endpoint resolution on an axis of length `n`: a negative
endpoint counts from the end, then the endpoint is clamped to `[0, n]`. -/
def pyResolve (i : ℤ) (n : ℕ) : ℤ :=
  if i < 0 then max 0 (i + n) else min i n

/-- `gx0 = max(topX, 0)` (per axis, `t` the window's low edge). -/
def srcLo (t : ℤ) : ℤ := max t 0

/-- `gx1 = min(topX + view_size, grid.shape[0])` (per axis). -/
def srcHi (t : ℤ) (v n : ℕ) : ℤ := min (t + v) n

/-- `px0 = max(0, -topX)` (per axis). -/
def dstLo (t : ℤ) : ℤ := max 0 (-t)

/-- Resolved low endpoint of the grid slice `grid[gx0:gx1]`. -/
def rsrcLo (t : ℤ) (n : ℕ) : ℤ := pyResolve (srcLo t) n

/-- Resolved high endpoint of the grid slice `grid[gx0:gx1]`. -/
def rsrcHi (t : ℤ) (v n : ℕ) : ℤ := pyResolve (srcHi t v n) n

/-- Resolved low endpoint of the window slice `fov[px0 : px0 + (gx1 - gx0)]`. -/
def rdstLo (t : ℤ) (v : ℕ) : ℤ := pyResolve (dstLo t) v

/-- Resolved high endpoint of the window slice `fov[px0 : px0 + (gx1 - gx0)]`. -/
def rdstHi (t : ℤ) (v n : ℕ) : ℤ := pyResolve (dstLo t + (srcHi t v n - srcLo t)) v

/-- Length of the grid slice along one axis. -/
def srcLen (t : ℤ) (v n : ℕ) : ℤ := max 0 (rsrcHi t v n - rsrcLo t n)

/-- Length of the window slice along one axis. -/
def dstLen (t : ℤ) (v n : ℕ) : ℤ := max 0 (rdstHi t v n - rdstLo t v)

/-- Steps 2-4 of `get_field_of_view`: allocate a `view_size × view_size`
window filled with `wallCode` and execute the numpy slice assignment
`fov[px0 : px0 + (gx1 - gx0), py0 : py0 + (gy1 - gy0)] = grid[gx0:gx1, gy0:gy1]`.
The assignment broadcasts the source into the target slice: on each axis the
lengths must agree or the source length must be 1 (a length-1 source axis is
repeated); otherwise numpy raises `ValueError` (modelled as `none`). -/
def fovWindow (s : MinigridState) (view_size : ℕ) (topX topY : ℤ) :
    Option (ℕ → ℕ → ℤ) :=
  if (srcLen topX view_size s.width = dstLen topX view_size s.width ∨
        srcLen topX view_size s.width = 1) ∧
     (srcLen topY view_size s.height = dstLen topY view_size s.height ∨
        srcLen topY view_size s.height = 1) then
    some fun i j =>
      if rdstLo topX view_size ≤ (i : ℤ) ∧ (i : ℤ) < rdstHi topX view_size s.width ∧
         rdstLo topY view_size ≤ (j : ℤ) ∧ (j : ℤ) < rdstHi topY view_size s.height then
        s.grid
          (rsrcLo topX s.width +
            (if srcLen topX view_size s.width = 1 then 0
             else (i : ℤ) - rdstLo topX view_size))
          (rsrcLo topY s.height +
            (if srcLen topY view_size s.height = 1 then 0
             else (j : ℤ) - rdstLo topY view_size))
      else wallCode
  else none

/-- `np.rot90(m, k=1)` on an `n × n` array: one counter-clockwise quarter
turn, `rot90(m)[i][j] = m[j][n-1-i]`. -/
def rot90 (n : ℕ) (m : ℕ → ℕ → ℤ) : ℕ → ℕ → ℤ :=
  fun i j => m j (n - 1 - i)

/-- `m.T`: numpy transpose of a square array. -/
def transposeFn (m : ℕ → ℕ → ℤ) : ℕ → ℕ → ℤ :=
  fun i j => m j i

/-- The source's rotation primitive, one iteration of the loop body
`fov = np.rot90(fov.T, k=1).T`: transpose, counter-clockwise quarter turn,
transpose again. -/
def rotLeftPrim (n : ℕ) (m : ℕ → ℕ → ℤ) : ℕ → ℕ → ℤ :=
  transposeFn (rot90 n (transposeFn m))

/-- Where `rotLeftPrim` sends the entry at position `p` of an `n × n`
array: the entry at `p = (a, b)` of `m` appears at `(b, n-1-a)` of
`rotLeftPrim n m`. -/
def rotPos (n : ℕ) (p : ℕ × ℕ) : ℕ × ℕ := (p.2, n - 1 - p.1)

/-- The fatal errors `get_field_of_view` can raise: the `assert False` on an
invalid direction, numpy's `ValueError` on a broadcast-incompatible slice
assignment, and numpy's `IndexError` on the final agent-marking write when
the grid has a zero-length axis. -/
inductive FovError where
  | invalidDirection
  | broadcastMismatch
  | indexError
deriving DecidableEq

/-- Step 6 of `get_field_of_view`, the documented side effect: the write
`self.grid[(grid.shape[0] // 2, grid.shape[1] - 1)] = ObjectTypes.agent`
applied to the state. -/
def markAgent (s : MinigridState) : MinigridState :=
  { s with
    grid := fun x y =>
      if x = ((s.width / 2 : ℕ) : ℤ) ∧ y = (s.height : ℤ) - 1 then agentCode
      else s.grid x y }

/-- The rotation loop `for _ in range(agent_dir + 1): fov = np.rot90(fov.T, k=1).T`. -/
def rotateFov (s : MinigridState) (view_size : ℕ) (fov0 : ℕ → ℕ → ℤ) : ℕ → ℕ → ℤ :=
  (rotLeftPrim view_size)^[(s.agent_dir + 1).toNat] fov0

/-- `MinigridState.get_field_of_view`: steps 1-4 build the clipped window,
the loop then applies `rotLeftPrim` `agent_dir + 1` times, and finally the
source mutates `self.grid[(width // 2, height - 1)] = ObjectTypes.agent`
before returning.  The returned pair is (returned window, state after the
mutation). The integer-index write is in range exactly when both axes are
nonempty. -/
def get_field_of_view (s : MinigridState) (view_size : ℕ) :
    Except FovError ((ℕ → ℕ → ℤ) × MinigridState) :=
  match fovTop s view_size with
  | none => .error .invalidDirection
  | some (topX, topY) =>
    match fovWindow s view_size topX topY with
    | none => .error .broadcastMismatch
    | some fov0 =>
      if 1 ≤ s.width ∧ 1 ≤ s.height then
        .ok (rotateFov s view_size fov0, markAgent s)
      else .error .indexError

/-- `true` exactly on successful (`.ok`) results. -/
def exceptOk {ε α : Type} : Except ε α → Bool
  | .ok _ => true
  | .error _ => false

/-- Test state: a 3×3 grid, all `emptyCode` except cell `(1, 2)` which holds
`closed_door = 5`; agent at `(1, 1)` facing down. -/
def sEx : MinigridState :=
  { grid := fun x y => if x = 1 ∧ y = 2 then 5 else 1
    width := 3, height := 3, agent_pos := (1, 1), agent_dir := 1,
    carrying := none }

/-- Test state: invalid direction 7. -/
def sDir7 : MinigridState :=
  { grid := fun _ _ => 1, width := 3, height := 3, agent_pos := (1, 1),
    agent_dir := 7, carrying := none }

/-- Test state: direction −1, which Python list indexing silently wraps. -/
def sDirNeg : MinigridState :=
  { grid := fun _ _ => 1, width := 3, height := 3, agent_pos := (1, 1),
    agent_dir := -1, carrying := none }

/-- Test state: agent at the corner `(0, 0)` facing up. -/
def sUp : MinigridState :=
  { grid := fun _ _ => 1, width := 3, height := 3, agent_pos := (0, 0),
    agent_dir := 3, carrying := none }

/-- Test state for `get_type_indices`: code 9 at exactly `(1, 2)` and
`(3, 4)` on a 5×5 grid. -/
def sTyp : MinigridState :=
  { grid := fun x y => if (x = 1 ∧ y = 2) ∨ (x = 3 ∧ y = 4) then 9 else 1
    width := 5, height := 5, agent_pos := (0, 0), agent_dir := 0,
    carrying := none }

/-- Test state: agent at `(5, 1)` (off a 3×3 grid, to the right), facing
right.  The view window `[5, 8) × [0, 3)` misses the grid and the numpy
slice assignment raises `ValueError`. -/
def sOffR : MinigridState :=
  { grid := fun _ _ => 1, width := 3, height := 3, agent_pos := (5, 1),
    agent_dir := 0, carrying := none }

/-- Test state: agent at `(-10, 1)` (far off a 3×3 grid, to the left),
facing right.  The view window misses the grid and the slice assignment
degenerates to an empty copy, leaving the window all-wall. -/
def sOffL : MinigridState :=
  { grid := fun _ _ => 1, width := 3, height := 3, agent_pos := (-10, 1),
    agent_dir := 0, carrying := none }

example : fovTop sEx 3 = some (0, 1) := by decide
example : front_pos sDirNeg = some (1, 0) := by decide
example : front_pos sDir7 = none := by decide
example : get_type_indices sTyp 9 = [(1, 2), (3, 4)] := by decide
example : exceptOk (get_field_of_view sEx 3) = true := rfl
example : get_field_of_view sOffR 3 = .error .broadcastMismatch := rfl
example : exceptOk (get_field_of_view sOffL 3) = true := rfl

/-- A slice endpoint already in `[0, n]` resolves to itself. -/
theorem pyResolve_eq_self (i : ℤ) (n : ℕ) (h0 : 0 ≤ i) (h1 : i ≤ n) :
    pyResolve i n = i := by
  unfold pyResolve
  split_ifs <;> omega

/-- Case split on `pyResolve`. -/
theorem pyResolve_cases (i : ℤ) (n : ℕ) :
    (i < 0 ∧ pyResolve i n = max 0 (i + n)) ∨ (0 ≤ i ∧ pyResolve i n = min i n) := by
  unfold pyResolve
  split_ifs with h
  · exact Or.inl ⟨h, rfl⟩
  · exact Or.inr ⟨by omega, rfl⟩

/-- On a valid direction the top-left corner exists, and it puts the agent
inside the window: `a - v + 1 ≤ top ≤ a` on each axis. -/
theorem fovTop_some (s : MinigridState) (v : ℕ)
    (hd : 0 ≤ s.agent_dir ∧ s.agent_dir ≤ 3) (hv : 1 ≤ v) :
    ∃ tX tY, fovTop s v = some (tX, tY) ∧
      s.agent_pos.1 - v + 1 ≤ tX ∧ tX ≤ s.agent_pos.1 ∧
      s.agent_pos.2 - v + 1 ≤ tY ∧ tY ≤ s.agent_pos.2 := by
  have hhalf : (v / 2 : ℕ) ≤ v - 1 := by omega
  have hd4 : s.agent_dir = 0 ∨ s.agent_dir = 1 ∨ s.agent_dir = 2 ∨ s.agent_dir = 3 := by
    omega
  rcases hd4 with h | h | h | h
  · exact ⟨s.agent_pos.1, s.agent_pos.2 - (v / 2 : ℕ), by simp [fovTop, h],
      by omega, by omega, by omega, by omega⟩
  · exact ⟨s.agent_pos.1 - (v / 2 : ℕ), s.agent_pos.2, by simp [fovTop, h],
      by omega, by omega, by omega, by omega⟩
  · exact ⟨s.agent_pos.1 - v + 1, s.agent_pos.2 - (v / 2 : ℕ), by simp [fovTop, h],
      by omega, by omega, by omega, by omega⟩
  · exact ⟨s.agent_pos.1 - (v / 2 : ℕ), s.agent_pos.2 - v + 1, by simp [fovTop, h],
      by omega, by omega, by omega, by omega⟩

/-- One axis of the slice assignment when the agent coordinate `a` is inside
the grid axis `[0, n)` and inside the window `[t, t + v)`: all endpoints
resolve to themselves, source and target slice lengths agree and are
positive, the target slice covers exactly the in-bounds window offsets, and
the copied cell at offset `i` comes from grid coordinate `t + i`. -/
theorem axis_inbounds (t : ℤ) (v n : ℕ) (a : ℤ)
    (h0 : 0 ≤ a) (h1 : a < n) (h2 : t ≤ a) (h3 : a < t + v) :
    srcLen t v n = dstLen t v n ∧ 0 < srcLen t v n ∧
    rdstLo t v = max 0 (-t) ∧
    (∀ i : ℕ, i < v →
      ((rdstLo t v ≤ (i : ℤ) ∧ (i : ℤ) < rdstHi t v n) ↔ (0 ≤ t + i ∧ t + i < n))) ∧
    (∀ i : ℕ, (rdstLo t v ≤ (i : ℤ) ∧ (i : ℤ) < rdstHi t v n) →
      rsrcLo t n + (if srcLen t v n = 1 then 0 else (i : ℤ) - rdstLo t v) = t + i) := by
  have e1 : rsrcLo t n = max t 0 := by
    unfold rsrcLo srcLo
    exact pyResolve_eq_self _ _ (by omega) (by omega)
  have e2 : rsrcHi t v n = min (t + v) n := by
    unfold rsrcHi srcHi
    exact pyResolve_eq_self _ _ (by omega) (by omega)
  have e3 : rdstLo t v = max 0 (-t) := by
    unfold rdstLo dstLo
    exact pyResolve_eq_self _ _ (by omega) (by omega)
  have e4 : rdstHi t v n = max 0 (-t) + (min (t + v) n - max t 0) := by
    unfold rdstHi dstLo srcHi srcLo
    exact pyResolve_eq_self _ _ (by omega) (by omega)
  have eS : srcLen t v n = min (t + v) n - max t 0 := by
    unfold srcLen
    rw [e1, e2]; omega
  have eD : dstLen t v n = min (t + v) n - max t 0 := by
    unfold dstLen
    rw [e3, e4]; omega
  refine ⟨by omega, by omega, e3, ?_, ?_⟩
  · intro i hi
    rw [e3, e4]
    omega
  · intro i hreg
    rw [e3, e4] at hreg
    rw [e1, e3, eS]
    split_ifs with h1s <;> omega

/-- Steps 2-4 on an agent-containing window with the agent in bounds: the
slice assignment succeeds and the resulting (unrotated) window holds the
grid cell at `(topX + i, topY + j)` when that point is in bounds and the
wall sentinel otherwise. -/
theorem fovWindow_inbounds (s : MinigridState) (v : ℕ) (tX tY : ℤ)
    (hx0 : 0 ≤ s.agent_pos.1) (hx1 : s.agent_pos.1 < s.width)
    (hy0 : 0 ≤ s.agent_pos.2) (hy1 : s.agent_pos.2 < s.height)
    (hx2 : tX ≤ s.agent_pos.1) (hx3 : s.agent_pos.1 < tX + v)
    (hy2 : tY ≤ s.agent_pos.2) (hy3 : s.agent_pos.2 < tY + v) :
    ∃ f, fovWindow s v tX tY = some f ∧
      ∀ i j : ℕ, i < v → j < v →
        f i j = if 0 ≤ tX + i ∧ tX + i < s.width ∧ 0 ≤ tY + j ∧ tY + j < s.height
                then s.grid (tX + i) (tY + j) else wallCode := by
  obtain ⟨hxLen, -, -, hxIff, hxSrc⟩ :=
    axis_inbounds tX v s.width s.agent_pos.1 hx0 hx1 hx2 hx3
  obtain ⟨hyLen, -, -, hyIff, hySrc⟩ :=
    axis_inbounds tY v s.height s.agent_pos.2 hy0 hy1 hy2 hy3
  rw [fovWindow, if_pos ⟨Or.inl hxLen, Or.inl hyLen⟩]
  refine ⟨_, rfl, ?_⟩
  intro i j hi hj
  by_cases hreg : rdstLo tX v ≤ (i : ℤ) ∧ (i : ℤ) < rdstHi tX v s.width ∧
      rdstLo tY v ≤ (j : ℤ) ∧ (j : ℤ) < rdstHi tY v s.height
  · rw [if_pos hreg, hxSrc i ⟨hreg.1, hreg.2.1⟩, hySrc j ⟨hreg.2.2.1, hreg.2.2.2⟩,
      if_pos ?_]
    have h1 := (hxIff i hi).mp ⟨hreg.1, hreg.2.1⟩
    have h2 := (hyIff j hj).mp ⟨hreg.2.2.1, hreg.2.2.2⟩
    exact ⟨h1.1, h1.2, h2.1, h2.2⟩
  · rw [if_neg hreg, if_neg ?_]
    intro hin
    exact hreg ⟨((hxIff i hi).mpr ⟨hin.1, hin.2.1⟩).1, ((hxIff i hi).mpr ⟨hin.1, hin.2.1⟩).2,
      ((hyIff j hj).mpr ⟨hin.2.2.1, hin.2.2.2⟩).1, ((hyIff j hj).mpr ⟨hin.2.2.1, hin.2.2.2⟩).2⟩

/-- Pointwise formula for one application of the rotation primitive. -/
theorem rotLeftPrim_apply (n : ℕ) (m : ℕ → ℕ → ℤ) (i j : ℕ) :
    rotLeftPrim n m i j = m (n - 1 - j) i := rfl

/-- One rotation sends the entry at an in-range position `p` to `rotPos n p`. -/
theorem rotLeftPrim_at_rotPos (n : ℕ) (m : ℕ → ℕ → ℤ) (p : ℕ × ℕ)
    (h1 : p.1 < n) (_h2 : p.2 < n) :
    rotLeftPrim n m (rotPos n p).1 (rotPos n p).2 = m p.1 p.2 := by
  show m (n - 1 - (n - 1 - p.1)) p.2 = m p.1 p.2
  congr 1
  omega

/-- Iterated rotations keep positions in range and track the entry at `p`:
after `k` rotations the original entry `m p.1 p.2` sits at `(rotPos n)^[k] p`. -/
theorem rotIter_track (n : ℕ) (m : ℕ → ℕ → ℤ) (p : ℕ × ℕ)
    (h1 : p.1 < n) (h2 : p.2 < n) (k : ℕ) :
    ((rotPos n)^[k] p).1 < n ∧ ((rotPos n)^[k] p).2 < n ∧
    ((rotLeftPrim n)^[k] m) ((rotPos n)^[k] p).1 ((rotPos n)^[k] p).2 = m p.1 p.2 := by
  induction k with
  | zero => exact ⟨h1, h2, rfl⟩
  | succ k ih =>
    obtain ⟨ih1, ih2, ih3⟩ := ih
    rw [Function.iterate_succ_apply', Function.iterate_succ_apply']
    refine ⟨?_, ?_, ?_⟩
    · show ((rotPos n)^[k] p).2 < n
      exact ih2
    · show n - 1 - ((rotPos n)^[k] p).1 < n
      omega
    · rw [rotLeftPrim_at_rotPos n _ _ ih1 ih2, ih3]

/-- Iterated rotations of an everywhere-wall window stay everywhere-wall. -/
theorem rotIter_wall (n k : ℕ) (m : ℕ → ℕ → ℤ)
    (hw : ∀ i j : ℕ, m i j = wallCode) :
    ∀ i j : ℕ, ((rotLeftPrim n)^[k] m) i j = wallCode := by
  induction k with
  | zero => exact hw
  | succ k ih =>
    intro i j
    rw [Function.iterate_succ_apply', rotLeftPrim_apply]
    exact ih _ _

/-- If the window misses the grid along one axis (`srcHi ≤ srcLo`) and the
slice assignment is broadcast-compatible on that axis, the target slice along
that axis is empty. -/
theorem axis_disjoint_target_empty (t : ℤ) (v n : ℕ)
    (hdisj : srcHi t v n ≤ srcLo t)
    (hg : srcLen t v n = dstLen t v n ∨ srcLen t v n = 1) :
    rdstHi t v n ≤ rdstLo t v := by
  simp only [srcLen, dstLen, rsrcLo, rsrcHi, rdstLo, rdstHi, srcLo, srcHi,
    dstLo] at hdisj hg ⊢
  rcases pyResolve_cases (max t 0) n with ⟨a1, a2⟩ | ⟨a1, a2⟩ <;>
    rcases pyResolve_cases (min (t + v) n) n with ⟨b1, b2⟩ | ⟨b1, b2⟩ <;>
      rcases pyResolve_cases (max 0 (-t)) v with ⟨c1, c2⟩ | ⟨c1, c2⟩ <;>
        rcases pyResolve_cases (max 0 (-t) + (min (t + v) n - max t 0)) v
            with ⟨d1, d2⟩ | ⟨d1, d2⟩ <;>
          omega

/-- Unfolding a successful `get_field_of_view` call: the direction dispatch
produced a corner, the slice assignment succeeded, the returned window is the
rotated copy of the unrotated one, both grid axes are nonempty, and the
returned state is the input with the one agent-marking write applied. -/
theorem get_fov_ok (s : MinigridState) (v : ℕ) (f : ℕ → ℕ → ℤ)
    (s' : MinigridState) (h : get_field_of_view s v = .ok (f, s')) :
    ∃ tX tY f0, fovTop s v = some (tX, tY) ∧ fovWindow s v tX tY = some f0 ∧
      f = (rotLeftPrim v)^[(s.agent_dir + 1).toNat] f0 ∧
      1 ≤ s.width ∧ 1 ≤ s.height ∧ s' = markAgent s := by
  unfold get_field_of_view at h
  split at h
  · exact Except.noConfusion h
  rename_i tX tY hT
  split at h
  · exact Except.noConfusion h
  rename_i f0 hW
  split_ifs at h with hwh
  have hp := Except.ok.inj h
  rw [Prod.mk.injEq] at hp
  exact ⟨tX, tY, f0, hT, hW, hp.1.symm, hwh.1, hwh.2, hp.2.symm⟩

/-- The invalid-direction error is raised only by the direction dispatch. -/
theorem get_fov_invalid (s : MinigridState) (v : ℕ)
    (h : get_field_of_view s v = .error .invalidDirection) :
    fovTop s v = none := by
  unfold get_field_of_view at h
  split at h
  · assumption
  split at h
  · exact absurd (Except.error.inj h) (by simp)
  split_ifs at h
  exact absurd (Except.error.inj h) (by simp)

/-- Claim C1: for every `MinigridState` whose agent position lies in
`[0,width) × [0,height)` and whose direction is in `{0,1,2,3}`, and every odd
`view_size ≥ 1`, the unrotated window built by steps 2-4 of
`get_field_of_view` holds, at each index `(i, j)` with `0 ≤ i, j < view_size`,
the grid cell at `(topX + i, topY + j)` whenever that point lies within
`[0,width) × [0,height)`, and the wall sentinel code otherwise. -/
theorem c1_unrotated_window (s : MinigridState) (v : ℕ)
    (hx0 : 0 ≤ s.agent_pos.1) (hx1 : s.agent_pos.1 < s.width)
    (hy0 : 0 ≤ s.agent_pos.2) (hy1 : s.agent_pos.2 < s.height)
    (hd : 0 ≤ s.agent_dir ∧ s.agent_dir ≤ 3) (hv : v % 2 = 1) :
    ∃ tX tY f, fovTop s v = some (tX, tY) ∧ fovWindow s v tX tY = some f ∧
      ∀ i j : ℕ, i < v → j < v →
        f i j = if 0 ≤ tX + i ∧ tX + i < s.width ∧ 0 ≤ tY + j ∧ tY + j < s.height
                then s.grid (tX + i) (tY + j) else wallCode := by
  obtain ⟨tX, tY, hT, hb1, hb2, hb3, hb4⟩ := fovTop_some s v hd (by omega)
  obtain ⟨f, hW, hf⟩ := fovWindow_inbounds s v tX tY hx0 hx1 hy0 hy1
    hb2 (by omega) hb4 (by omega)
  exact ⟨tX, tY, f, hT, hW, hf⟩

/-- Claim C1 witness: the window formula evaluated on `sEx` with
`view_size = 3`. -/
theorem c1_witness :
    ∃ tX tY f, fovTop sEx 3 = some (tX, tY) ∧ fovWindow sEx 3 tX tY = some f ∧
      ∀ i j : ℕ, i < 3 → j < 3 →
        f i j = if 0 ≤ tX + i ∧ tX + i < sEx.width ∧ 0 ≤ tY + j ∧ tY + j < sEx.height
                then sEx.grid (tX + i) (tY + j) else wallCode :=
  c1_unrotated_window sEx 3 (by decide) (by decide) (by decide) (by decide)
    ⟨by decide, by decide⟩ (by decide)

/-- Claim C2: for every `MinigridState` with direction in `{0,1,2,3}` and
every `view_size`, the top-left corner computed by `get_field_of_view` is:
`(agentX, agentY − v/2)` facing right; `(agentX − v/2, agentY)` facing down;
`(agentX − v + 1, agentY − v/2)` facing left; `(agentX − v/2, agentY − v + 1)`
facing up, with integer floor division. -/
theorem c2_top_left_corner (s : MinigridState) (v : ℕ) :
    (s.agent_dir = 0 →
      fovTop s v = some (s.agent_pos.1, s.agent_pos.2 - (v / 2 : ℕ))) ∧
    (s.agent_dir = 1 →
      fovTop s v = some (s.agent_pos.1 - (v / 2 : ℕ), s.agent_pos.2)) ∧
    (s.agent_dir = 2 →
      fovTop s v = some (s.agent_pos.1 - v + 1, s.agent_pos.2 - (v / 2 : ℕ))) ∧
    (s.agent_dir = 3 →
      fovTop s v = some (s.agent_pos.1 - (v / 2 : ℕ), s.agent_pos.2 - v + 1)) := by
  refine ⟨fun h => ?_, fun h => ?_, fun h => ?_, fun h => ?_⟩ <;> simp [fovTop, h]

/-- Claim C2 witness: `sEx` faces down with `view_size = 5`, giving corner
`(1 − 5/2, 1) = (−1, 1)`. -/
theorem c2_witness : fovTop sEx 5 = some (-1, 1) := by
  have h := (c2_top_left_corner sEx 5).2.1 rfl
  rw [h]
  decide

/-- Claim C9: for every `MinigridState` whose agent position is in bounds,
with direction in `{0,1,2,3}` and any `view_size ≥ 1`, the window computed by
`get_field_of_view` contains the agent's own position, hence the overlap
rectangle between window and grid is non-empty and the copy slice in step 4
has positive extent on both axes. -/
theorem c9_window_contains_agent (s : MinigridState) (v : ℕ)
    (hx0 : 0 ≤ s.agent_pos.1) (hx1 : s.agent_pos.1 < s.width)
    (hy0 : 0 ≤ s.agent_pos.2) (hy1 : s.agent_pos.2 < s.height)
    (hd : 0 ≤ s.agent_dir ∧ s.agent_dir ≤ 3) (hv : 1 ≤ v) :
    ∃ tX tY, fovTop s v = some (tX, tY) ∧
      tX ≤ s.agent_pos.1 ∧ s.agent_pos.1 < tX + v ∧
      tY ≤ s.agent_pos.2 ∧ s.agent_pos.2 < tY + v ∧
      max tX 0 < min (tX + v) (s.width : ℤ) ∧
      max tY 0 < min (tY + v) (s.height : ℤ) ∧
      0 < srcLen tX v s.width ∧ 0 < dstLen tX v s.width ∧
      0 < srcLen tY v s.height ∧ 0 < dstLen tY v s.height := by
  obtain ⟨tX, tY, hT, hb1, hb2, hb3, hb4⟩ := fovTop_some s v hd hv
  obtain ⟨hxLen, hxPos, -, -, -⟩ :=
    axis_inbounds tX v s.width s.agent_pos.1 hx0 hx1 hb2 (by omega)
  obtain ⟨hyLen, hyPos, -, -, -⟩ :=
    axis_inbounds tY v s.height s.agent_pos.2 hy0 hy1 hb4 (by omega)
  exact ⟨tX, tY, hT, hb2, by omega, hb4, by omega, by omega, by omega,
    hxPos, by omega, hyPos, by omega⟩

/-- Claim C9 witness: on `sEx` with `view_size = 3` the window contains the
agent and the overlap is positive on both axes. -/
theorem c9_witness :
    ∃ tX tY, fovTop sEx 3 = some (tX, tY) ∧
      tX ≤ sEx.agent_pos.1 ∧ sEx.agent_pos.1 < tX + 3 ∧
      tY ≤ sEx.agent_pos.2 ∧ sEx.agent_pos.2 < tY + 3 ∧
      max tX 0 < min (tX + 3) (sEx.width : ℤ) ∧
      max tY 0 < min (tY + 3) (sEx.height : ℤ) ∧
      0 < srcLen tX 3 sEx.width ∧ 0 < dstLen tX 3 sEx.width ∧
      0 < srcLen tY 3 sEx.height ∧ 0 < dstLen tY 3 sEx.height :=
  c9_window_contains_agent sEx 3 (by decide) (by decide) (by decide) (by decide)
    ⟨by decide, by decide⟩ (by decide)

/-- Claim C7: for every `MinigridState` with direction `d ∈ {0,1,2,3}`,
`front_pos` returns exactly `agent_pos + v(d)` with `v(0) = (+1,0)`,
`v(1) = (0,+1)`, `v(2) = (−1,0)`, `v(3) = (0,−1)`, with no clamping or bounds
check (the state's grid bounds play no role and no error is raised). -/
theorem c7_front_pos_formula (s : MinigridState) :
    (s.agent_dir = 0 → front_pos s = some (s.agent_pos.1 + 1, s.agent_pos.2)) ∧
    (s.agent_dir = 1 → front_pos s = some (s.agent_pos.1, s.agent_pos.2 + 1)) ∧
    (s.agent_dir = 2 → front_pos s = some (s.agent_pos.1 - 1, s.agent_pos.2)) ∧
    (s.agent_dir = 3 → front_pos s = some (s.agent_pos.1, s.agent_pos.2 - 1)) := by
  refine ⟨fun h => ?_, fun h => ?_, fun h => ?_, fun h => ?_⟩ <;>
    simp [front_pos, pyListGet, DIR_TO_VEC, h] <;> ring

/-- Claim C7 witness: the agent of `sUp` sits at the corner `(0, 0)` facing
up, and `front_pos` returns the off-grid position `(0, −1)` without error. -/
theorem c7_witness : front_pos sUp = some (0, -1) := by
  have h := (c7_front_pos_formula sUp).2.2.2 rfl
  rw [h]
  decide

/-- A direction that survives the dispatch of step 1 is one of `0,1,2,3`. -/
theorem fovTop_dir (s : MinigridState) (v : ℕ) (tX tY : ℤ)
    (h : fovTop s v = some (tX, tY)) : 0 ≤ s.agent_dir ∧ s.agent_dir ≤ 3 := by
  unfold fovTop at h
  split_ifs at h <;> omega

/-- Claim C3: for every state with direction `d ∈ {0,1,2,3}` and odd
`view_size ≥ 1`, the array returned by `get_field_of_view` equals the clipped
window of steps 2-4 with the composite quarter-turn (transpose, rotate 90°
counter-clockwise, transpose again) applied exactly `d + 1` times; and the
composite quarter-turn differs from a plain 90° rotation on some square
window. -/
theorem c3_rotation_composite (s : MinigridState) (v : ℕ) (f : ℕ → ℕ → ℤ)
    (s' : MinigridState) (hd : 0 ≤ s.agent_dir ∧ s.agent_dir ≤ 3)
    (hv : v % 2 = 1) (hok : get_field_of_view s v = .ok (f, s')) :
    (∃ tX tY f0, fovTop s v = some (tX, tY) ∧ fovWindow s v tX tY = some f0 ∧
      ∀ i j : ℕ, i < v → j < v →
        f i j = ((rotLeftPrim v)^[(s.agent_dir + 1).toNat] f0) i j) ∧
    (∃ n : ℕ, ∃ m : ℕ → ℕ → ℤ, ∃ i j : ℕ, i < n ∧ j < n ∧
      rotLeftPrim n m i j ≠ rot90 n m i j) := by
  obtain ⟨tX, tY, f0, hT, hW, hfeq, -, -, -⟩ := get_fov_ok s v f s' hok
  refine ⟨⟨tX, tY, f0, hT, hW, fun i j _ _ => by rw [hfeq]⟩, ?_⟩
  exact ⟨2, fun i j => 2 * i + j, 0, 0, by omega, by omega, by decide⟩

/-- Claim C3 witness: the rotation relation evaluated on a successful call on
`sEx` with `view_size = 3`, and the concrete 2×2 window separating the
composite quarter-turn from a plain rotation. -/
theorem c3_witness :
    ∃ n : ℕ, ∃ m : ℕ → ℕ → ℤ, ∃ i j : ℕ, i < n ∧ j < n ∧
      rotLeftPrim n m i j ≠ rot90 n m i j := by
  rcases hE : get_field_of_view sEx 3 with e | ⟨f, s'⟩
  · have hb : exceptOk (get_field_of_view sEx 3) = true := rfl
    rw [hE] at hb
    simp [exceptOk] at hb
  · exact (c3_rotation_composite sEx 3 f s' ⟨by decide, by decide⟩ (by decide) hE).2

/-- Claim C4: whenever `get_field_of_view` returns, the grid cell at
`(width / 2, height − 1)` of the resulting state equals the agent cell code,
and every other grid cell, the agent position, the agent direction and the
carrying field are unchanged from their values at entry. -/
theorem c4_agent_marking (s : MinigridState) (v : ℕ) (f : ℕ → ℕ → ℤ)
    (s' : MinigridState) (hok : get_field_of_view s v = .ok (f, s')) :
    s'.grid ((s.width / 2 : ℕ) : ℤ) ((s.height : ℤ) - 1) = agentCode ∧
    (∀ x y : ℤ, ¬(x = ((s.width / 2 : ℕ) : ℤ) ∧ y = (s.height : ℤ) - 1) →
      s'.grid x y = s.grid x y) ∧
    s'.agent_pos = s.agent_pos ∧ s'.agent_dir = s.agent_dir ∧
    s'.carrying = s.carrying := by
  obtain ⟨-, -, -, -, -, -, -, -, hs'⟩ := get_fov_ok s v f s' hok
  subst hs'
  refine ⟨?_, ?_, rfl, rfl, rfl⟩
  · show (if ((s.width / 2 : ℕ) : ℤ) = ((s.width / 2 : ℕ) : ℤ) ∧
        (s.height : ℤ) - 1 = (s.height : ℤ) - 1 then agentCode
      else s.grid ((s.width / 2 : ℕ) : ℤ) ((s.height : ℤ) - 1)) = agentCode
    rw [if_pos ⟨rfl, rfl⟩]
  · intro x y hxy
    show (if x = ((s.width / 2 : ℕ) : ℤ) ∧ y = (s.height : ℤ) - 1 then agentCode
      else s.grid x y) = s.grid x y
    rw [if_neg hxy]

/-- Claim C4 witness: on `sEx` (3×3) the call marks cell `(1, 2)` with the
agent code, leaves `(0, 0)` at its entry value and preserves the pose. -/
theorem c4_witness :
    (get_field_of_view sEx 3).toOption.map
        (fun p => (p.2.grid 1 2, p.2.grid 0 0, p.2.agent_pos, p.2.agent_dir,
          p.2.carrying)) =
      some (agentCode, 1, (1, 1), 1, none) := by
  rcases hE : get_field_of_view sEx 3 with e | ⟨f, s'⟩
  · have hb : exceptOk (get_field_of_view sEx 3) = true := rfl
    rw [hE] at hb
    simp [exceptOk] at hb
  · obtain ⟨h1, h2, h3, h4, h5⟩ := c4_agent_marking sEx 3 f s' hE
    show some (s'.grid 1 2, s'.grid 0 0, s'.agent_pos, s'.agent_dir, s'.carrying) =
      some (agentCode, 1, (1, 1), 1, none)
    have e1 : s'.grid 1 2 = agentCode := h1
    have e2 : s'.grid 0 0 = 1 := h2 0 0 (by decide)
    rw [e1, e2, h3, h4, h5]
    rfl

/-- Claim C10: the returned window is a function of the grid as it was at
entry: at the window position corresponding to the marked cell
`(width / 2, height − 1)` (tracked through the `d + 1` rotations by
`rotPos`), the returned window reports the entry value of that cell, even
though the same call sets the cell to the agent code in the resulting
state. -/
theorem c10_entry_grid_window (s : MinigridState) (v : ℕ) (f : ℕ → ℕ → ℤ)
    (s' : MinigridState) (tX tY : ℤ)
    (hx0 : 0 ≤ s.agent_pos.1) (hx1 : s.agent_pos.1 < s.width)
    (hy0 : 0 ≤ s.agent_pos.2) (hy1 : s.agent_pos.2 < s.height)
    (htop : fovTop s v = some (tX, tY))
    (hmx0 : tX ≤ ((s.width / 2 : ℕ) : ℤ)) (hmx1 : ((s.width / 2 : ℕ) : ℤ) < tX + v)
    (hmy0 : tY ≤ (s.height : ℤ) - 1) (hmy1 : (s.height : ℤ) - 1 < tY + v)
    (hok : get_field_of_view s v = .ok (f, s')) :
    f ((rotPos v)^[(s.agent_dir + 1).toNat]
        (((((s.width / 2 : ℕ) : ℤ)) - tX).toNat, ((s.height : ℤ) - 1 - tY).toNat)).1
      ((rotPos v)^[(s.agent_dir + 1).toNat]
        (((((s.width / 2 : ℕ) : ℤ)) - tX).toNat, ((s.height : ℤ) - 1 - tY).toNat)).2
      = s.grid ((s.width / 2 : ℕ) : ℤ) ((s.height : ℤ) - 1) ∧
    s'.grid ((s.width / 2 : ℕ) : ℤ) ((s.height : ℤ) - 1) = agentCode := by
  obtain ⟨tX', tY', f0, hT', hW, hfeq, hw1, hh1, hs'⟩ := get_fov_ok s v f s' hok
  rw [htop] at hT'
  have hps := Option.some.inj hT'
  rw [Prod.mk.injEq] at hps
  obtain ⟨h1, h2⟩ := hps
  subst h1
  subst h2
  obtain ⟨tX2, tY2, hT2, b1, b2, b3, b4⟩ :=
    fovTop_some s v (fovTop_dir s v tX tY htop) (by omega)
  rw [htop] at hT2
  have hps2 := Option.some.inj hT2
  rw [Prod.mk.injEq] at hps2
  obtain ⟨h1, h2⟩ := hps2
  subst h1
  subst h2
  obtain ⟨f0', hW', hf⟩ := fovWindow_inbounds s v tX tY hx0 hx1 hy0 hy1
    b2 (by omega) b4 (by omega)
  rw [hW] at hW'
  have hf0 : f0 = f0' := Option.some.inj hW'
  subst hf0
  have hi0 : ((((s.width / 2 : ℕ) : ℤ) - tX).toNat : ℤ) = ((s.width / 2 : ℕ) : ℤ) - tX := by
    omega
  have hj0 : (((s.height : ℤ) - 1 - tY).toNat : ℤ) = (s.height : ℤ) - 1 - tY := by
    omega
  have hi0v : (((s.width / 2 : ℕ) : ℤ) - tX).toNat < v := by omega
  have hj0v : ((s.height : ℤ) - 1 - tY).toNat < v := by omega
  have htrack := rotIter_track v f0
    ((((s.width / 2 : ℕ) : ℤ) - tX).toNat, ((s.height : ℤ) - 1 - tY).toNat)
    hi0v hj0v (s.agent_dir + 1).toNat
  constructor
  · rw [hfeq, htrack.2.2, hf _ _ hi0v hj0v, if_pos ?_]
    · congr 1 <;> omega
    · refine ⟨by omega, by omega, by omega, by omega⟩
  · subst hs'
    show (if ((s.width / 2 : ℕ) : ℤ) = ((s.width / 2 : ℕ) : ℤ) ∧
        (s.height : ℤ) - 1 = (s.height : ℤ) - 1 then agentCode
      else s.grid ((s.width / 2 : ℕ) : ℤ) ((s.height : ℤ) - 1)) = agentCode
    rw [if_pos ⟨rfl, rfl⟩]

/-- Claim C10 witness: on `sEx` the mark cell `(1, 2)` lies inside the
window, holds `5` at entry, and the returned window reports `5` at the
corresponding position while the resulting state's grid holds the agent
code there. -/
theorem c10_witness :
    (get_field_of_view sEx 3).toOption.map (fun p => (p.1 1 1, p.2.grid 1 2)) =
      some (5, agentCode) := by
  rcases hE : get_field_of_view sEx 3 with e | ⟨f, s'⟩
  · have hb : exceptOk (get_field_of_view sEx 3) = true := rfl
    rw [hE] at hb
    simp [exceptOk] at hb
  · have h := c10_entry_grid_window sEx 3 f s' 0 1 (by decide) (by decide)
      (by decide) (by decide) (by decide) (by decide) (by decide) (by decide)
      (by decide) hE
    show some (f 1 1, s'.grid 1 2) = some (5, agentCode)
    have e1 : f 1 1 = 5 := h.1
    have e2 : s'.grid 1 2 = agentCode := h.2
    rw [e1, e2]

/-- Claim C5 counterexample: `sDirNeg` carries the invalid direction `−1`,
yet `front_pos` silently returns a position (Python list indexing wraps
`DIR_TO_VEC[-1]` to the last entry) instead of signalling a fatal error. -/
theorem c5_counterexample :
    (sDirNeg.agent_dir < 0 ∨ 3 < sDirNeg.agent_dir) ∧
    front_pos sDirNeg ≠ none ∧ front_pos sDirNeg = some (1, 0) := by
  exact ⟨by decide, by decide, by decide⟩

/-- Claim C5 (amended): `get_field_of_view` signals the fatal invalid
direction error for every direction outside `{0,1,2,3}`; `front_pos` signals
a fatal error (`IndexError`) only for directions above `3` or below `−4`,
and for each direction `d` in `[−4, −1]` silently returns exactly
`agent_pos + DIR_TO_VEC[d + 4]` (Python negative indexing wraps, so `−4`
gives `(+1,0)`, `−3` gives `(0,+1)`, `−2` gives `(−1,0)`, `−1` gives
`(0,−1)`); directions inside `{0,1,2,3}` never trigger either error. -/
theorem c5_error_handling_amended (s : MinigridState) (v : ℕ) :
    (s.agent_dir < 0 ∨ 3 < s.agent_dir →
      get_field_of_view s v = .error .invalidDirection) ∧
    (3 < s.agent_dir ∨ s.agent_dir < -4 → front_pos s = none) ∧
    (0 ≤ s.agent_dir ∧ s.agent_dir ≤ 3 →
      get_field_of_view s v ≠ .error .invalidDirection ∧ front_pos s ≠ none) ∧
    ((s.agent_dir = -4 → front_pos s = some (s.agent_pos.1 + 1, s.agent_pos.2)) ∧
     (s.agent_dir = -3 → front_pos s = some (s.agent_pos.1, s.agent_pos.2 + 1)) ∧
     (s.agent_dir = -2 → front_pos s = some (s.agent_pos.1 - 1, s.agent_pos.2)) ∧
     (s.agent_dir = -1 → front_pos s = some (s.agent_pos.1, s.agent_pos.2 - 1))) := by
  refine ⟨fun h => ?_, fun h => ?_, fun h => ?_, ?_⟩
  · have hT : fovTop s v = none := by
      unfold fovTop
      split_ifs <;> first | rfl | omega
    simp [get_field_of_view, hT]
  · have hlen : DIR_TO_VEC.length = 4 := rfl
    have hL : pyListGet DIR_TO_VEC s.agent_dir = none := by
      unfold pyListGet
      split_ifs with h1 h2
      · exact List.get?_eq_none.mpr (by omega)
      · omega
      · rfl
    simp [front_pos, hL]
  · constructor
    · intro hc
      have hT := get_fov_invalid s v hc
      have h4 : s.agent_dir = 0 ∨ s.agent_dir = 1 ∨ s.agent_dir = 2 ∨
          s.agent_dir = 3 := by omega
      rcases h4 with hh | hh | hh | hh <;> simp [fovTop, hh] at hT
    · have h4 : s.agent_dir = 0 ∨ s.agent_dir = 1 ∨ s.agent_dir = 2 ∨
          s.agent_dir = 3 := by omega
      rcases h4 with hh | hh | hh | hh <;>
        simp [front_pos, pyListGet, DIR_TO_VEC, hh]
  · refine ⟨fun hh => ?_, fun hh => ?_, fun hh => ?_, fun hh => ?_⟩ <;>
      simp [front_pos, pyListGet, DIR_TO_VEC, hh] <;> ring

/-- Claim C5 witness: direction 7 is fatal for both operations, and
direction `−1` is silently coerced by `front_pos` to
`agent_pos + DIR_TO_VEC[3] = (1, 0)`. -/
theorem c5_witness :
    get_field_of_view sDir7 3 = .error .invalidDirection ∧
    front_pos sDir7 = none ∧ front_pos sDirNeg = some (1, 0) := by
  obtain ⟨h1, h2, -, -⟩ := c5_error_handling_amended sDir7 3
  obtain ⟨-, -, -, h4⟩ := c5_error_handling_amended sDirNeg 3
  refine ⟨h1 (by decide), h2 (by decide), ?_⟩
  have hp := h4.2.2.2 rfl
  rw [hp]
  decide

/-- Claim C6: `get_type_indices` returns exactly the coordinates whose cell
equals the requested type, in row-major scan order (ascending first index,
ties broken by ascending second index), and the result is identical for
states with equal grids and dimensions. -/
theorem c6_type_indices (s : MinigridState) (t : ℤ) :
    (∀ p : ℕ × ℕ, p ∈ get_type_indices s t ↔
      p.1 < s.width ∧ p.2 < s.height ∧ s.grid p.1 p.2 = t) ∧
    (get_type_indices s t).Pairwise
      (fun p q => p.1 < q.1 ∨ (p.1 = q.1 ∧ p.2 < q.2)) ∧
    (∀ s2 : MinigridState, s.grid = s2.grid → s.width = s2.width →
      s.height = s2.height → get_type_indices s t = get_type_indices s2 t) := by
  refine ⟨?_, ?_, ?_⟩
  · rintro ⟨a, b⟩
    unfold get_type_indices
    simp only [List.mem_flatMap, List.mem_filterMap, List.mem_range]
    constructor
    · rintro ⟨i, hi, j, hj, hif⟩
      split_ifs at hif with hg
      obtain ⟨rfl, rfl⟩ := Prod.mk.injEq .. ▸ Option.some.inj hif
      exact ⟨hi, hj, hg⟩
    · rintro ⟨h1, h2, h3⟩
      exact ⟨a, h1, b, h2, by rw [if_pos h3]⟩
  · unfold get_type_indices
    rw [List.pairwise_flatMap]
    constructor
    · intro i hi
      rw [List.pairwise_filterMap]
      refine (List.pairwise_lt_range s.height).imp ?_
      intro j j' hjj' x hx y hy
      split_ifs at hx hy <;> simp at hx hy
      subst hx
      subst hy
      exact Or.inr ⟨rfl, hjj'⟩
    · refine (List.pairwise_lt_range s.width).imp ?_
      intro i i' hii' x hx y hy
      rw [List.mem_filterMap] at hx hy
      obtain ⟨jx, -, hfx⟩ := hx
      obtain ⟨jy, -, hfy⟩ := hy
      split_ifs at hfx
      split_ifs at hfy
      obtain ⟨rfl, -⟩ := Prod.mk.injEq .. ▸ (Option.some.inj hfx).symm
      obtain ⟨rfl, -⟩ := Prod.mk.injEq .. ▸ (Option.some.inj hfy).symm
      exact Or.inl hii'
  · intro s2 hg hw hh
    unfold get_type_indices
    rw [hg, hw, hh]

/-- Claim C6 witness: on `sTyp` (type 9 exactly at `(1,2)` and `(3,4)`),
membership and order of `get_type_indices`. -/
theorem c6_witness :
    ((1, 2) ∈ get_type_indices sTyp 9) ∧ ((3, 4) ∈ get_type_indices sTyp 9) ∧
    ((0, 0) ∉ get_type_indices sTyp 9) := by
  obtain ⟨hmem, -, -⟩ := c6_type_indices sTyp 9
  refine ⟨(hmem (1, 2)).mpr ⟨by decide, by decide, by decide⟩,
    (hmem (3, 4)).mpr ⟨by decide, by decide, by decide⟩, fun hc => ?_⟩
  exact absurd ((hmem (0, 0)).mp hc).2.2 (by decide)

/-- Claim C8 counterexample: on `sOffR` (3×3 grid, agent at `(5, 1)` facing
right, `view_size = 3`) the window `[5, 8) × [0, 3)` does not intersect the
grid, yet `get_field_of_view` does not return an all-wall window: the numpy
slice assignment's endpoint `px0 + (gx1 − gx0) = −2` wraps around and the
copy raises a broadcast `ValueError`. -/
theorem c8_counterexample :
    fovTop sOffR 3 = some (5, 0) ∧
    min ((5 : ℤ) + 3) (sOffR.width : ℤ) ≤ max (5 : ℤ) 0 ∧
    get_field_of_view sOffR 3 = .error .broadcastMismatch :=
  ⟨by decide, by decide, rfl⟩

/-- Claim C8 (amended): for every state with a valid direction and odd
`view_size ≥ 1` whose window does not intersect the grid, whenever
`get_field_of_view` returns at all (the numpy copy can instead raise a
broadcast error for such windows), every cell of the returned
`view_size × view_size` array is the wall sentinel. -/
theorem c8_all_wall_amended (s : MinigridState) (v : ℕ) (tX tY : ℤ)
    (f : ℕ → ℕ → ℤ) (s' : MinigridState)
    (hd : 0 ≤ s.agent_dir ∧ s.agent_dir ≤ 3) (hv : v % 2 = 1)
    (htop : fovTop s v = some (tX, tY))
    (hdisj : min (tX + v) (s.width : ℤ) ≤ max tX 0 ∨
      min (tY + v) (s.height : ℤ) ≤ max tY 0)
    (hok : get_field_of_view s v = .ok (f, s')) :
    ∀ i j : ℕ, i < v → j < v → f i j = wallCode := by
  obtain ⟨tX', tY', f0, hT', hW, hfeq, -, -, -⟩ := get_fov_ok s v f s' hok
  rw [htop] at hT'
  have hps := Option.some.inj hT'
  rw [Prod.mk.injEq] at hps
  obtain ⟨h1, h2⟩ := hps
  subst h1
  subst h2
  unfold fovWindow at hW
  by_cases hg : (srcLen tX v s.width = dstLen tX v s.width ∨
      srcLen tX v s.width = 1) ∧
    (srcLen tY v s.height = dstLen tY v s.height ∨ srcLen tY v s.height = 1)
  case neg =>
    rw [if_neg hg] at hW
    exact Option.noConfusion hW
  rw [if_pos hg] at hW
  have hf0 := Option.some.inj hW
  have hempty : rdstHi tX v s.width ≤ rdstLo tX v ∨
      rdstHi tY v s.height ≤ rdstLo tY v := by
    rcases hdisj with hdx | hdy
    · exact Or.inl (axis_disjoint_target_empty tX v s.width hdx hg.1)
    · exact Or.inr (axis_disjoint_target_empty tY v s.height hdy hg.2)
  have hwall : ∀ a b : ℕ, f0 a b = wallCode := by
    intro a b
    rw [← hf0]
    have hreg : ¬(rdstLo tX v ≤ (a : ℤ) ∧ (a : ℤ) < rdstHi tX v s.width ∧
        rdstLo tY v ≤ (b : ℤ) ∧ (b : ℤ) < rdstHi tY v s.height) := by
      rcases hempty with he | he <;> omega
    simp only [if_neg hreg]
  intro i j hi hj
  rw [hfeq]
  exact rotIter_wall v _ f0 hwall i j

/-- Claim C8 witness: on `sOffL` (3×3 grid, agent at `(−10, 1)` facing
right) the window misses the grid, the call succeeds, and the returned
window is all wall. -/
theorem c8_witness :
    (get_field_of_view sOffL 3).toOption.map (fun p => (p.1 0 0, p.1 1 2, p.1 2 1)) =
      some (wallCode, wallCode, wallCode) := by
  rcases hE : get_field_of_view sOffL 3 with e | ⟨f, s'⟩
  · have hb : exceptOk (get_field_of_view sOffL 3) = true := rfl
    rw [hE] at hb
    simp [exceptOk] at hb
  · have h := c8_all_wall_amended sOffL 3 (-10) 0 f s' ⟨by decide, by decide⟩
      (by decide) (by decide) (Or.inl (by decide)) hE
    show some (f 0 0, f 1 2, f 2 1) = some (wallCode, wallCode, wallCode)
    rw [h 0 0 (by omega) (by omega), h 1 2 (by omega) (by omega),
      h 2 1 (by omega) (by omega)]

end Minigrid
